import Mathlib

/-!
Verification of the session-scoped script execution engine of the
data-exploration MCP server (`src/mcp_server_ds/server.py`).

The embedding models the `ScriptRunner` class: its mutable state
(`data`, `df_count`, `notes`), the `load_csv` operation and the
`safe_eval` operation. Python dictionaries become association lists
with in-place overwrite, `pd.read_csv` becomes an abstract filesystem
function `fs : String → Except String DataFrame`, and the `exec` of an
arbitrary script becomes an abstract transformer on the execution
namespace that either raises (with a message) or returns the final
namespace together with the full text the script wrote to the
redirected standard output. The fixed library globals (`pd`, `np`,
`scipy`, `sklearn`, `sm`) passed as the globals dict of `exec` are
absorbed into that transformer: they never alias the dataset store.
-/

/-- A tabular dataset: `pd.DataFrame` abstracted to its shape plus an
opaque payload distinguishing different frames of equal shape. -/
structure DataFrame where
  rows : Nat
  cols : Nat
  payload : Nat
  deriving DecidableEq, Repr

/-- A Python value as far as the engine inspects it: the
`isinstance(df, pd.DataFrame)` test in write-back only distinguishes
tabular datasets from everything else. -/
inductive PyValue where
  | dataframe (df : DataFrame)
  | pyObj (tag : Nat)
  deriving DecidableEq, Repr

/-- Association-list lookup, mirroring Python `dict.get`. -/
def aget {α : Type} : List (String × α) → String → Option α
  | [], _ => none
  | (k, v) :: rest, n => if k = n then some v else aget rest n

/-- Association-list insert-or-overwrite, mirroring Python
`d[name] = v`: an existing key keeps its position and gets the new
value, a fresh key is appended. -/
def aset {α : Type} : List (String × α) → String → α → List (String × α)
  | [], n, v => [(n, v)]
  | (k, w) :: rest, n, v =>
      if k = n then (k, v) :: rest else (k, w) :: aset rest n v

/-- The mutable state of `ScriptRunner`: `self.data` (name → DataFrame),
`self.df_count`, and `self.notes` (append-only log). -/
structure State where
  data : List (String × DataFrame)
  df_count : Nat
  notes : List String
  deriving DecidableEq, Repr

/-- `ScriptRunner.__init__`: empty store, zero counter, empty log. -/
def initState : State := { data := [], df_count := 0, notes := [] }

/-- Where `sys.stdout` currently points: the real process stream or some
capture buffer. `safe_eval` redirects to a fresh buffer for the duration
of the call and restores the previous target on every exit path. -/
inductive StdoutTarget where
  | real
  | captured (id : Nat)
  deriving DecidableEq, Repr

/-- The name `load_csv` stores under: Python
`name = df_name or f"df_\x7bself.df_count\x7d"` evaluated after the
increment — `None` and the empty string are both falsy, so either
selects the synthesized default. `count` is the already-incremented
counter value. -/
def resolvedName (count : Nat) (df_name : Option String) : String :=
  match df_name with
  | none => "df_" ++ toString count
  | some n => if n = "" then "df_" ++ toString count else n

/-- `ScriptRunner.load_csv`. The counter increments before the `try`
block, so it advances even when the read fails. On success the frame is
stored under the resolved name, a log entry is appended and the same
message is returned; on failure the `McpError` message wraps the
underlying one and neither `data` nor `notes` changes. -/
def load_csv (fs : String → Except String DataFrame) (s : State)
    (csv_path : String) (df_name : Option String) :
    Except String String × State :=
  let count := s.df_count + 1
  let name := resolvedName count df_name
  match fs csv_path with
  | Except.ok df =>
      let msg := "Loaded CSV into \x27" ++ name ++ "\x27 (" ++
        toString df.rows ++ " rows, " ++ toString df.cols ++ " cols)"
      (Except.ok msg,
        { s with df_count := count,
                 data := aset s.data name df,
                 notes := s.notes ++ [msg] })
  | Except.error e =>
      (Except.error ("Error loading CSV: " ++ e),
        { s with df_count := count })

/-- The execution namespace type: the `local_vars` dict of `safe_eval`. -/
def Nspace : Type := List (String × PyValue)

/-- `local_vars = \x7b**self.data\x7d`: a fresh dict holding one entry
per stored dataset. This value-level rendering treats each dataset as
an immutable value, which is adequate for the claims about control
flow, log order, naming, error paths and dict-level effects; it does
not capture that the Python copy is shallow and shares the underlying
`pd.DataFrame` objects with the store. The reference-level model below
(`RState`, `safe_eval_heap`) renders exactly that sharing. -/
def namespaceOfData (data : List (String × DataFrame)) : Nspace :=
  data.map (fun p => (p.1, PyValue.dataframe p.2))

/-- A client script as the engine observes it: its source text (logged
before execution) and the effect of `exec` on the local namespace —
either an exception message or the final namespace plus everything the
script wrote to the captured standard output. As a pure transformer on
dataset values this covers rebinding and replacement of namespace
entries; in-place mutation of shared dataset objects is expressible
only in the reference-level model below (`RScript`). -/
structure Script where
  text : String
  run : Nspace → Except String (Nspace × String)

/-- The log entry recorded by a successful write-back of `name`. -/
def savedEntry (name : String) : String :=
  "Saved DataFrame \x27" ++ name ++ "\x27 to memory"

/-- The pre-execution audit log entry for a script. -/
def scriptEntry (sc : Script) : String :=
  "Executing script:\n" ++ sc.text

/-- The write-back loop of `safe_eval`: for each requested name, look it
up in the (fixed) final namespace; a DataFrame value is stored into
`self.data` and logged, anything else — absent names included — is
skipped. -/
def writeBack (vars : Nspace) : List String → State → State
  | [], st => st
  | name :: rest, st =>
      match aget vars name with
      | some (PyValue.dataframe df) =>
          writeBack vars rest
            { st with data := aset st.data name df,
                      notes := st.notes ++ [savedEntry name] }
      | _ => writeBack vars rest st

/-- The `isinstance(df, pd.DataFrame)` test of the write-back loop, on
the result of the namespace lookup. -/
def isDataFrameVal : Option PyValue → Bool
  | some (PyValue.dataframe _) => true
  | _ => false

/-- The write-back log entries of a call, in loop order. -/
def savedNotes (vars : Nspace) (names : List String) : List String :=
  names.filterMap (fun name =>
    match aget vars name with
    | some (PyValue.dataframe _) => some (savedEntry name)
    | _ => none)

/-- Python `str.strip()`: drop leading and trailing whitespace. Written
over the character list so it evaluates by kernel reduction. -/
def pyStrip (s : String) : String :=
  ⟨((s.data.dropWhile Char.isWhitespace).reverse.dropWhile
      Char.isWhitespace).reverse⟩

/-- `ScriptRunner.safe_eval`. Builds the namespace from the current
store, logs the script text, redirects standard output, runs the
script, restores standard output on both exit paths, and on success
computes `output = stdout.getvalue().strip() or "<no output>"`,
performs the write-back loop (Python `if save_to_memory:` skips both
`None` and the empty list, which coincides with folding over
`getD []`), then appends the `Script output:` entry. Returns the
outcome, the final runner state, and the final `sys.stdout` target. -/
def safe_eval (s : State) (old_stdout : StdoutTarget) (sc : Script)
    (save_to_memory : Option (List String)) :
    Except String String × State × StdoutTarget :=
  let local_vars := namespaceOfData s.data
  let s1 := { s with notes := s.notes ++ [scriptEntry sc] }
  match sc.run local_vars with
  | Except.error e =>
      (Except.error ("Script error: " ++ e), s1, old_stdout)
  | Except.ok (finalVars, capturedText) =>
      let output :=
        if pyStrip capturedText = "" then "<no output>" else pyStrip capturedText
      let s2 := writeBack finalVars (save_to_memory.getD []) s1
      let s3 := { s2 with notes := s2.notes ++ ["Script output: " ++ output] }
      (Except.ok output, s3, old_stdout)

/-- One request in a sequence of load calls. -/
structure LoadCall where
  path : String
  name : Option String

/-- Run a sequence of load calls, collecting the resolved name of each
call (the name is computed before the read is attempted, so every call
resolves one). -/
def loadSeq (fs : String → Except String DataFrame) :
    State → List LoadCall → List String × State
  | s, [] => ([], s)
  | s, c :: cs =>
      let r := load_csv fs s c.path c.name
      let rest := loadSeq fs r.2 cs
      (resolvedName (s.df_count + 1) c.name :: rest.1, rest.2)

/-- Concrete dataframe used by witnesses. -/
def dfA : DataFrame := ⟨2, 3, 0⟩

/-- A second concrete dataframe, distinct from `dfA`. -/
def dfB : DataFrame := ⟨5, 1, 1⟩

/-- A filesystem on which every read succeeds with `dfA`. -/
def okFs : String → Except String DataFrame := fun _ => Except.ok dfA

/-- A filesystem on which every read succeeds with `dfB`. -/
def okFsB : String → Except String DataFrame := fun _ => Except.ok dfB

/-- A filesystem on which every read fails. -/
def failFs : String → Except String DataFrame := fun _ => Except.error "boom"

/-- A concrete runner state holding one dataset. -/
def wState : State := { data := [("a", dfA)], df_count := 1, notes := ["n0"] }

/-- A script that does nothing and prints nothing. -/
def idScript : Script := ⟨"pass", fun ns => Except.ok (ns, "")⟩

/-- A script whose only captured output is whitespace. -/
def blankScript : Script := ⟨"print()", fun ns => Except.ok (ns, "\n")⟩

/-- A script that raises with message `boom`. -/
def failScript : Script :=
  ⟨"raise ValueError(\x27boom\x27)", fun _ => Except.error "boom"⟩

/-- A script that binds the local name `x` to a non-DataFrame value. -/
def assignScript : Script :=
  ⟨"x = object()", fun ns => Except.ok (aset ns "x" (PyValue.pyObj 7), "")⟩

/-- A concrete load sequence: unnamed, named, empty-string-named. -/
def cCalls : List LoadCall :=
  [⟨"a.csv", none⟩, ⟨"b.csv", some "b"⟩, ⟨"c.csv", some ""⟩]

/-- First index of a string in a list, if present. -/
def firstIdx : List String → String → Option Nat
  | [], _ => none
  | a :: rest, x =>
      if a = x then some 0 else (firstIdx rest x).map (· + 1)

/-- `x` occurs in `l` and its first occurrence is strictly before the
first occurrence of `y`. -/
def appearsBefore (l : List String) (x y : String) : Bool :=
  match firstIdx l x, firstIdx l y with
  | some i, some j => decide (i < j)
  | _, _ => false

/-!
Reference-level model of `safe_eval`. Python objects live on a heap
and variables hold references: `local_vars = \x7b**self.data\x7d` is a
shallow dict copy, so the namespace and the store share the underlying
`pd.DataFrame` objects, and a script that mutates such an object in
place (`df.drop(..., inplace=True)`, `df["c"] = 1`) changes the value
the store observes even without write-back — the tool description in
the source forbids scripts from overwriting original DataFrames for
precisely this reason. The value-level model above cannot express this
sharing, so the namespace-isolation claim is settled against this
model instead.
-/

/-- The heap of `pd.DataFrame` objects: address → current value. -/
def Heap : Type := List (Nat × DataFrame)

/-- Heap read at an address. -/
def hget : Heap → Nat → Option DataFrame
  | [], _ => none
  | (k, v) :: rest, a => if k = a then some v else hget rest a

/-- In-place mutation of the object at an address: every reference to
that address — stored or local — observes the new value. -/
def hset : Heap → Nat → DataFrame → Heap
  | [], a, v => [(a, v)]
  | (k, w) :: rest, a, v =>
      if k = a then (k, v) :: rest else (k, w) :: hset rest a v

/-- A Python value at reference level: a reference to a DataFrame
object on the heap (the only values `self.data` ever holds), or any
other object. -/
inductive RPyValue where
  | ref (addr : Nat)
  | pyObj (tag : Nat)
  deriving DecidableEq, Repr

/-- The runner state at reference level: `self.data` maps names to
object references into the shared heap. -/
structure RState where
  heap : Heap
  data : List (String × Nat)
  df_count : Nat
  notes : List String

/-- `local_vars = \x7b**self.data\x7d` at reference level: a fresh
dict whose entries are the same references as the store's — the copy
is shallow. -/
def shallowCopy (data : List (String × Nat)) : List (String × RPyValue) :=
  data.map (fun p => (p.1, RPyValue.ref p.2))

/-- A client script at reference level: `exec` may rebind or replace
entries of the local namespace and may mutate heap objects in place
through the references it holds; it returns the final namespace, the
final heap and the captured output, or an exception message together
with the heap at the moment of the raise (in-place mutations performed
before a raise persist, as in Python). -/
structure RScript where
  text : String
  run : List (String × RPyValue) → Heap →
    Except (String × Heap) (List (String × RPyValue) × Heap × String)

/-- The write-back loop at reference level: a namespace entry holding
a DataFrame reference passes the `isinstance` test and its reference
is stored; anything else is skipped. -/
def rwriteBack (vars : List (String × RPyValue)) :
    List String → RState → RState
  | [], st => st
  | name :: rest, st =>
      match aget vars name with
      | some (RPyValue.ref a) =>
          rwriteBack vars rest
            { st with data := aset st.data name a,
                      notes := st.notes ++ [savedEntry name] }
      | _ => rwriteBack vars rest st

/-- `ScriptRunner.safe_eval` at reference level: same control flow as
`safe_eval`, with the namespace built as a shallow copy and the heap
threaded through the script so aliasing is observable. -/
def safe_eval_heap (s : RState) (old_stdout : StdoutTarget) (sc : RScript)
    (save_to_memory : Option (List String)) :
    Except String String × RState × StdoutTarget :=
  let local_vars := shallowCopy s.data
  let s1 := { s with notes := s.notes ++ ["Executing script:\n" ++ sc.text] }
  match sc.run local_vars s.heap with
  | Except.error (e, heap2) =>
      (Except.error ("Script error: " ++ e),
        { s1 with heap := heap2 }, old_stdout)
  | Except.ok (finalVars, heap2, capturedText) =>
      let output :=
        if pyStrip capturedText = "" then "<no output>" else pyStrip capturedText
      let s2 := rwriteBack finalVars (save_to_memory.getD [])
        { s1 with heap := heap2 }
      let s3 := { s2 with notes := s2.notes ++ ["Script output: " ++ output] }
      (Except.ok output, s3, old_stdout)

/-- The dataset value the store observes under a name: follow the
stored reference into the heap (`get(name)` at reference level). -/
def storedValue (st : RState) (n : String) : Option DataFrame :=
  (aget st.data n).bind (fun a => hget st.heap a)

/-- A concrete reference-level state: the store holds dataset `a` as a
reference to the heap object at address 0, whose value is `dfA`. -/
def rwState : RState :=
  { heap := [(0, dfA)], data := [("a", 0)], df_count := 1, notes := ["n0"] }

/-- A script that mutates the dataset object at address 0 in place
through its local reference `a` — no rebinding, no write-back. -/
def mutScript : RScript :=
  ⟨"a[\x27c\x27] = 1",
   fun vars heap => Except.ok (vars, hset heap 0 dfB, "")⟩

/-- A script that rebinds its local name `a` to a fresh non-DataFrame
object and leaves every heap object untouched. -/
def rebindScript : RScript :=
  ⟨"a = 0",
   fun vars heap => Except.ok (aset vars "a" (RPyValue.pyObj 0), heap, "")⟩

theorem aget_aset_self {α : Type} (d : List (String × α)) (n : String) (v : α) :
    aget (aset d n v) n = some v := by
  induction d with
  | nil => simp [aset, aget]
  | cons p rest ih =>
      obtain ⟨k, w⟩ := p
      by_cases h : k = n
      · simp [aset, aget, h]
      · simp [aset, aget, h, ih]

theorem aget_aset_ne {α : Type} (d : List (String × α)) (n m : String) (v : α)
    (h : m ≠ n) : aget (aset d m v) n = aget d n := by
  induction d with
  | nil => simp [aset, aget, h]
  | cons p rest ih =>
      obtain ⟨k, w⟩ := p
      by_cases hk : k = m
      · subst hk
        simp [aset, aget, h]
      · by_cases hn : k = n
        · simp [aset, aget, hk, hn, Ne.symm h]
        · simp [aset, aget, hk, hn, ih]

theorem aget_namespaceOfData (data : List (String × DataFrame)) (n : String) :
    aget (namespaceOfData data) n = (aget data n).map PyValue.dataframe := by
  induction data with
  | nil => simp [namespaceOfData, aget]
  | cons p rest ih =>
      obtain ⟨k, v⟩ := p
      by_cases h : k = n
      · simp [namespaceOfData, aget, h]
      · simpa [namespaceOfData, aget, h] using ih

theorem writeBack_notes (vars : Nspace) (names : List String) (st : State) :
    (writeBack vars names st).notes = st.notes ++ savedNotes vars names := by
  induction names generalizing st with
  | nil => simp [writeBack, savedNotes]
  | cons name rest ih =>
      cases h : aget vars name with
      | none => simp [writeBack, h, savedNotes, List.filterMap_cons, ih]
      | some v =>
          cases v with
          | dataframe df =>
              simp [writeBack, h, savedNotes, List.filterMap_cons, ih]
          | pyObj t =>
              simp [writeBack, h, savedNotes, List.filterMap_cons, ih]

theorem writeBack_data_of_not_mem (vars : Nspace) (n : String) :
    ∀ (names : List String) (st : State), n ∉ names →
      aget (writeBack vars names st).data n = aget st.data n := by
  intro names
  induction names with
  | nil => intro st _; simp [writeBack]
  | cons name rest ih =>
      intro st h
      rw [List.mem_cons, not_or] at h
      obtain ⟨h1, h2⟩ := h
      cases hv : aget vars name with
      | none => simpa [writeBack, hv] using ih _ h2
      | some v =>
          cases v with
          | dataframe df =>
              simp only [writeBack, hv]
              rw [ih _ h2]
              show aget (aset st.data name df) n = aget st.data n
              exact aget_aset_ne _ _ _ _ (fun e => h1 e.symm)
          | pyObj t => simpa [writeBack, hv] using ih _ h2

theorem writeBack_data_of_not_df (vars : Nspace) (n : String)
    (hv : isDataFrameVal (aget vars n) = false) :
    ∀ (names : List String) (st : State),
      aget (writeBack vars names st).data n = aget st.data n := by
  intro names
  induction names with
  | nil => intro st; simp [writeBack]
  | cons name rest ih =>
      intro st
      cases hm : aget vars name with
      | none => simpa [writeBack, hm] using ih _
      | some v =>
          cases v with
          | dataframe df =>
              have hne : name ≠ n := by
                intro e
                subst e
                rw [hm] at hv
                simp [isDataFrameVal] at hv
              simp only [writeBack, hm]
              rw [ih _]
              show aget (aset st.data name df) n = aget st.data n
              exact aget_aset_ne _ _ _ _ hne
          | pyObj t => simpa [writeBack, hm] using ih _

theorem writeBack_data_of_df (vars : Nspace) (n : String) (df : DataFrame)
    (hv : aget vars n = some (PyValue.dataframe df)) :
    ∀ (names : List String) (st : State), n ∈ names →
      aget (writeBack vars names st).data n = some df := by
  intro names
  induction names with
  | nil => intro st h; cases h
  | cons name rest ih =>
      intro st h
      by_cases hr : n ∈ rest
      · cases hm : aget vars name with
        | none => simpa [writeBack, hm] using ih _ hr
        | some v =>
            cases v with
            | dataframe d2 => simp only [writeBack, hm]; exact ih _ hr
            | pyObj t => simpa [writeBack, hm] using ih _ hr
      · have he : name = n := by
          rcases List.mem_cons.mp h with h1 | h1
          · exact h1.symm
          · exact absurd h1 hr
        subst he
        simp only [writeBack, hv]
        rw [writeBack_data_of_not_mem vars name rest _ hr]
        show aget (aset st.data name df) name = some df
        exact aget_aset_self _ _ _

theorem savedEntry_inj {m n : String} (h : savedEntry m = savedEntry n) :
    m = n := by
  unfold savedEntry at h
  have h2 := congrArg String.data h
  simp only [String.data_append] at h2
  exact String.ext (List.append_cancel_left (List.append_cancel_right h2))

theorem savedEntry_not_mem_savedNotes (vars : Nspace) (names : List String)
    (n : String) (hv : isDataFrameVal (aget vars n) = false) :
    savedEntry n ∉ savedNotes vars names := by
  intro hmem
  simp only [savedNotes, List.mem_filterMap] at hmem
  obtain ⟨m, hm, he⟩ := hmem
  cases hq : aget vars m with
  | none => rw [hq] at he; cases he
  | some v =>
      cases v with
      | dataframe df =>
          rw [hq] at he
          have hmn : m = n := savedEntry_inj (Option.some.inj he)
          subst hmn
          rw [hq] at hv
          simp [isDataFrameVal] at hv
      | pyObj t => rw [hq] at he; cases he

theorem savedEntry_mem_savedNotes (vars : Nspace) (names : List String)
    (n : String) (df : DataFrame) (hmem : n ∈ names)
    (hv : aget vars n = some (PyValue.dataframe df)) :
    savedEntry n ∈ savedNotes vars names := by
  simp only [savedNotes, List.mem_filterMap]
  exact ⟨n, hmem, by rw [hv]⟩

theorem load_csv_df_count (fs : String → Except String DataFrame) (s : State)
    (p : String) (dn : Option String) :
    (load_csv fs s p dn).2.df_count = s.df_count + 1 := by
  cases h : fs p <;> simp [load_csv, h]

theorem resolvedName_unnamed (count : Nat) (dn : Option String)
    (h : dn = none ∨ dn = some "") :
    resolvedName count dn = "df_" ++ toString count := by
  rcases h with h | h <;> subst h <;> simp [resolvedName]

theorem loadSeq_get (fs : String → Except String DataFrame)
    (calls : List LoadCall) :
    ∀ (s : State) (i : Nat),
      (loadSeq fs s calls).1[i]? =
        (calls[i]?).map (fun c => resolvedName (s.df_count + i + 1) c.name) := by
  induction calls with
  | nil => intro s i; simp [loadSeq]
  | cons c cs ih =>
      intro s i
      cases i with
      | zero => simp [loadSeq]
      | succ i =>
          have h1 : (loadSeq fs s (c :: cs)).1 =
              resolvedName (s.df_count + 1) c.name ::
                (loadSeq fs (load_csv fs s c.path c.name).2 cs).1 := rfl
          rw [h1, List.getElem?_cons_succ, List.getElem?_cons_succ, ih,
            load_csv_df_count]
          cases hc : cs[i]? with
          | none => simp
          | some c2 =>
              have : s.df_count + 1 + i + 1 = s.df_count + (i + 1) + 1 := by
                omega
              simp only [this]

/-- Claim C5: a script execution that raises fails with a script-error
message wrapping the underlying one, leaves the store mapping (and the
counter) unchanged, restores the previous standard-output target, and
appends exactly the pre-execution script entry to the log — in
particular no output entry and no write-back entry. -/
theorem script_failure_state_effect (s : State) (old : StdoutTarget)
    (sc : Script) (stm : Option (List String)) (e : String)
    (h : sc.run (namespaceOfData s.data) = Except.error e) :
    safe_eval s old sc stm =
      (Except.error ("Script error: " ++ e),
       { s with notes := s.notes ++ [scriptEntry sc] },
       old) := by
  simp [safe_eval, h]

/-- Witness for C5: the concrete raising script on the concrete state. -/
theorem script_failure_state_effect_witness :
    failScript.run (namespaceOfData wState.data) = Except.error "boom" ∧
    safe_eval wState StdoutTarget.real failScript (some ["a"]) =
      (Except.error "Script error: boom",
       { wState with notes := wState.notes ++ [scriptEntry failScript] },
       StdoutTarget.real) :=
  ⟨rfl,
   script_failure_state_effect wState StdoutTarget.real failScript
     (some ["a"]) "boom" rfl⟩

/-- Claim C6: when the captured standard-output text of a successful
script execution is empty after trimming leading and trailing
whitespace, the returned output is exactly the sentinel string. -/
theorem empty_output_sentinel (s : State) (old : StdoutTarget)
    (sc : Script) (stm : Option (List String)) (vars : Nspace)
    (raw : String)
    (hr : sc.run (namespaceOfData s.data) = Except.ok (vars, raw))
    (hraw : pyStrip raw = "") :
    (safe_eval s old sc stm).1 = Except.ok "<no output>" := by
  simp [safe_eval, hr, hraw]

/-- Witness for C6: a script whose only output is a newline yields the
sentinel. -/
theorem empty_output_sentinel_witness :
    blankScript.run (namespaceOfData wState.data) =
      Except.ok (namespaceOfData wState.data, "\n") ∧
    pyStrip "\n" = "" ∧
    (safe_eval wState StdoutTarget.real blankScript none).1 =
      Except.ok "<no output>" :=
  ⟨rfl, by decide,
   empty_output_sentinel wState StdoutTarget.real blankScript none
     (namespaceOfData wState.data) "\n" rfl (by decide)⟩

/-- Counterexample to claim C2: on a successful execution persisting an
existing dataset, the write-back entry is appended to the log before
the output entry, not after it — the first occurrence of
`Script output: <no output>` comes strictly later than the write-back
entry, refuting the claimed order at this concrete input. -/
theorem output_entry_before_saves_cex :
    appearsBefore
      (safe_eval wState StdoutTarget.real idScript (some ["a"])).2.1.notes
      ("Script output: <no output>") (savedEntry "a") = false ∧
    appearsBefore
      (safe_eval wState StdoutTarget.real idScript (some ["a"])).2.1.notes
      (savedEntry "a") ("Script output: <no output>") = true := by
  constructor <;> rfl

/-- Claim C2 amended: on a successful execution the final log is the
old log, then the pre-execution script entry, then the write-back
entries, then the `Script output:` entry — so the write-back entries of
a call are appended before its output entry, not after it. -/
theorem saved_entries_precede_output_entry (s : State) (old : StdoutTarget)
    (sc : Script) (names : List String) (vars : Nspace) (raw : String)
    (hr : sc.run (namespaceOfData s.data) = Except.ok (vars, raw)) :
    (safe_eval s old sc (some names)).2.1.notes =
      s.notes ++ [scriptEntry sc] ++ savedNotes vars names ++
        ["Script output: " ++
          (if pyStrip raw = "" then "<no output>" else pyStrip raw)] := by
  simp [safe_eval, hr, writeBack_notes]

/-- Witness for the amended C2: the concrete call of the counterexample
produces exactly that log shape. -/
theorem saved_entries_precede_output_entry_witness :
    idScript.run (namespaceOfData wState.data) =
      Except.ok (namespaceOfData wState.data, "") ∧
    (safe_eval wState StdoutTarget.real idScript (some ["a"])).2.1.notes =
      ["n0", scriptEntry idScript, savedEntry "a",
       "Script output: <no output>"] :=
  ⟨rfl,
   saved_entries_precede_output_entry wState StdoutTarget.real idScript
     ["a"] (namespaceOfData wState.data) "" rfl⟩

/-- Counterexample to claim C3: a load call whose read fails does
report the wrapped data-load error, but it mutates the internal name
counter — `df_count` moves from 0 to 1 — so the claimed "counter
unchanged" part is false at this concrete input. -/
theorem failed_load_advances_counter_cex :
    (load_csv failFs initState "f.csv" none).1 =
      Except.error "Error loading CSV: boom" ∧
    (load_csv failFs initState "f.csv" none).2.df_count = 1 ∧
    initState.df_count = 0 :=
  ⟨rfl, rfl, rfl⟩

/-- Claim C3 amended: a load call whose read fails reports the
data-load error wrapping the underlying message and leaves the store
mapping and the log unchanged, but the internal name counter is
incremented (it advances unconditionally on every load call). -/
theorem load_failure_state_effect (fs : String → Except String DataFrame)
    (s : State) (path : String) (dn : Option String) (e : String)
    (h : fs path = Except.error e) :
    load_csv fs s path dn =
      (Except.error ("Error loading CSV: " ++ e),
       { s with df_count := s.df_count + 1 }) := by
  simp [load_csv, h]

/-- Witness for the amended C3: the concrete failing load. -/
theorem load_failure_state_effect_witness :
    failFs "f.csv" = Except.error "boom" ∧
    load_csv failFs initState "f.csv" none =
      (Except.error "Error loading CSV: boom",
       { initState with df_count := 1 }) :=
  ⟨rfl,
   load_failure_state_effect failFs initState "f.csv" none "boom" rfl⟩

/-- Claim C4: in any sequence of load calls, every call that omits the
name (or passes the falsy empty string) resolves to the synthesized
default `df_<counter+position+1>`, so the default names of two unnamed
calls at earlier and later positions carry strictly increasing
indices, however the unnamed calls are interleaved with named loads. -/
theorem default_names_strictly_increase
    (fs : String → Except String DataFrame) (s : State)
    (calls : List LoadCall) (i j : Nat) (ci cj : LoadCall)
    (hi : calls[i]? = some ci) (hj : calls[j]? = some cj)
    (hui : ci.name = none ∨ ci.name = some "")
    (huj : cj.name = none ∨ cj.name = some "")
    (hij : i < j) :
    (loadSeq fs s calls).1[i]? =
      some ("df_" ++ toString (s.df_count + i + 1)) ∧
    (loadSeq fs s calls).1[j]? =
      some ("df_" ++ toString (s.df_count + j + 1)) ∧
    s.df_count + i + 1 < s.df_count + j + 1 := by
  refine ⟨?_, ?_, by omega⟩
  · rw [loadSeq_get, hi, Option.map]
    rw [resolvedName_unnamed _ _ hui]
  · rw [loadSeq_get, hj, Option.map]
    rw [resolvedName_unnamed _ _ huj]

/-- Witness for C4: from a fresh session, an unnamed load, a named
load, then an empty-string-named load resolve to `df_1`, `b`, `df_3`;
the two default names carry indices 1 < 3. -/
theorem default_names_strictly_increase_witness :
    (loadSeq okFs initState cCalls).1[0]? = some "df_1" ∧
    (loadSeq okFs initState cCalls).1[2]? = some "df_3" ∧
    (0 : Nat) + 0 + 1 < 0 + 2 + 1 := by
  have h := default_names_strictly_increase okFs initState cCalls 0 2
    ⟨"a.csv", none⟩ ⟨"c.csv", some ""⟩ rfl rfl (Or.inl rfl) (Or.inr rfl)
    (by decide)
  exact ⟨h.1, h.2.1, h.2.2⟩

/-- Claim C7: on a successful execution, a requested persist name whose
namespace lookup is not a tabular dataset (absent names included) is
silently skipped: the call still returns its output, the store mapping
is unchanged at that name, no write-back entry is produced for it, and
the final log is exactly script entry, write-back entries of the other
names, then the output entry. -/
theorem non_dataframe_persist_skipped (s : State) (old : StdoutTarget)
    (sc : Script) (names : List String) (vars : Nspace) (raw : String)
    (n : String)
    (hr : sc.run (namespaceOfData s.data) = Except.ok (vars, raw))
    (hn : isDataFrameVal (aget vars n) = false) :
    (safe_eval s old sc (some names)).1 =
      Except.ok (if pyStrip raw = "" then "<no output>" else pyStrip raw) ∧
    aget (safe_eval s old sc (some names)).2.1.data n = aget s.data n ∧
    savedEntry n ∉ savedNotes vars names ∧
    (safe_eval s old sc (some names)).2.1.notes =
      s.notes ++ [scriptEntry sc] ++ savedNotes vars names ++
        ["Script output: " ++
          (if pyStrip raw = "" then "<no output>" else pyStrip raw)] := by
  refine ⟨?_, ?_, savedEntry_not_mem_savedNotes vars names n hn, ?_⟩
  · simp [safe_eval, hr]
  · simp only [safe_eval, hr, Option.getD]
    rw [writeBack_data_of_not_df vars n hn]
  · simp [safe_eval, hr, writeBack_notes]

/-- Witness for C7: a script binding `x` to a non-DataFrame object,
persisted under `save_to_memory=["x"]`, is skipped without error. -/
theorem non_dataframe_persist_skipped_witness :
    isDataFrameVal
      (aget (aset (namespaceOfData wState.data) "x" (PyValue.pyObj 7))
        "x") = false ∧
    (safe_eval wState StdoutTarget.real assignScript (some ["x"])).1 =
      Except.ok "<no output>" ∧
    aget (safe_eval wState StdoutTarget.real assignScript
      (some ["x"])).2.1.data "x" = aget wState.data "x" ∧
    savedEntry "x" ∉
      savedNotes (aset (namespaceOfData wState.data) "x" (PyValue.pyObj 7))
        ["x"] := by
  have h := non_dataframe_persist_skipped wState StdoutTarget.real
    assignScript ["x"] (aset (namespaceOfData wState.data) "x"
      (PyValue.pyObj 7)) "" "x" rfl (by decide)
  exact ⟨by decide, h.1, h.2.1, h.2.2.1⟩

/-- Claim C8: a successful load under an explicit name that already
names a stored dataset overwrites it: the lookup afterwards yields the
newly loaded dataset (hence its shape), the returned message reports
the new shape, and the old dataset is gone whenever it differed. -/
theorem load_overwrites_existing_name
    (fs : String → Except String DataFrame) (s : State) (path n : String)
    (oldDf df : DataFrame)
    (hold : aget s.data n = some oldDf)
    (hfs : fs path = Except.ok df)
    (hne : n ≠ "") :
    aget (load_csv fs s path (some n)).2.data n = some df ∧
    (load_csv fs s path (some n)).1 =
      Except.ok ("Loaded CSV into \x27" ++ n ++ "\x27 (" ++
        toString df.rows ++ " rows, " ++ toString df.cols ++ " cols)") ∧
    (oldDf ≠ df →
      aget (load_csv fs s path (some n)).2.data n ≠ some oldDf) := by
  have h1 : aget (load_csv fs s path (some n)).2.data n = some df := by
    simp [load_csv, hfs, resolvedName, hne, aget_aset_self]
  refine ⟨h1, ?_, ?_⟩
  · simp [load_csv, hfs, resolvedName, hne]
  · intro hd hcon
    rw [h1] at hcon
    exact hd (Option.some.inj hcon).symm

/-- Witness for C8: reloading name `a` with a differently shaped frame
replaces the stored value. -/
theorem load_overwrites_existing_name_witness :
    aget wState.data "a" = some dfA ∧
    okFsB "x.csv" = Except.ok dfB ∧
    aget (load_csv okFsB wState "x.csv" (some "a")).2.data "a" =
      some dfB := by
  have h := load_overwrites_existing_name okFsB wState "x.csv" "a" dfA dfB
    rfl rfl (by decide)
  exact ⟨rfl, rfl, h.1⟩

/-- Claim C9: supplying the empty string as the dataset name behaves
exactly like omitting it — the whole call result coincides with the
unnamed call, and on success the frame is stored under the synthesized
default name. -/
theorem empty_name_behaves_as_omitted
    (fs : String → Except String DataFrame) (s : State) (path : String)
    (df : DataFrame) (hfs : fs path = Except.ok df) :
    load_csv fs s path (some "") = load_csv fs s path none ∧
    aget (load_csv fs s path (some "")).2.data
      ("df_" ++ toString (s.df_count + 1)) = some df := by
  constructor
  · simp [load_csv, resolvedName]
  · simp [load_csv, hfs, resolvedName, aget_aset_self]

/-- Witness for C9: the concrete empty-string load stores under `df_1`
and equals the unnamed call. -/
theorem empty_name_behaves_as_omitted_witness :
    okFs "a.csv" = Except.ok dfA ∧
    load_csv okFs initState "a.csv" (some "") =
      load_csv okFs initState "a.csv" none ∧
    aget (load_csv okFs initState "a.csv" (some "")).2.data "df_1" =
      some dfA := by
  have h := empty_name_behaves_as_omitted okFs initState "a.csv" dfA rfl
  exact ⟨rfl, h.1, h.2⟩

/-- Claim C10: when the persist list names a dataset already stored and
the script leaves its namespace entry untouched, write-back still
succeeds for that name — the lookup finds the initial copy from the
store, the same dataset is re-stored, and a write-back log entry is
appended for it. -/
theorem persist_preexisting_dataset (s : State) (old : StdoutTarget)
    (sc : Script) (names : List String) (vars : Nspace) (raw : String)
    (n : String) (df : DataFrame)
    (hd : aget s.data n = some df)
    (hr : sc.run (namespaceOfData s.data) = Except.ok (vars, raw))
    (hkeep : aget vars n = aget (namespaceOfData s.data) n)
    (hmem : n ∈ names) :
    aget (safe_eval s old sc (some names)).2.1.data n = some df ∧
    savedEntry n ∈ (safe_eval s old sc (some names)).2.1.notes := by
  have hv : aget vars n = some (PyValue.dataframe df) := by
    rw [hkeep, aget_namespaceOfData, hd]
    rfl
  constructor
  · simp only [safe_eval, hr, Option.getD]
    exact writeBack_data_of_df vars n df hv names _ hmem
  · simp only [safe_eval, hr, Option.getD]
    rw [writeBack_notes]
    have hm := savedEntry_mem_savedNotes vars names n df hmem hv
    simp [hm]

/-- Witness for C10: persisting the untouched pre-existing dataset `a`
re-stores it and logs the write-back entry. -/
theorem persist_preexisting_dataset_witness :
    aget wState.data "a" = some dfA ∧
    aget (safe_eval wState StdoutTarget.real idScript
      (some ["a"])).2.1.data "a" = some dfA ∧
    savedEntry "a" ∈
      (safe_eval wState StdoutTarget.real idScript (some ["a"])).2.1.notes := by
  have h := persist_preexisting_dataset wState StdoutTarget.real idScript
    ["a"] (namespaceOfData wState.data) "" "a" dfA rfl rfl rfl
    (List.mem_singleton.mpr rfl)
  exact ⟨rfl, h.1, h.2⟩

theorem rwriteBack_data_of_not_mem (vars : List (String × RPyValue))
    (n : String) :
    ∀ (names : List String) (st : RState), n ∉ names →
      aget (rwriteBack vars names st).data n = aget st.data n := by
  intro names
  induction names with
  | nil => intro st _; simp [rwriteBack]
  | cons name rest ih =>
      intro st h
      rw [List.mem_cons, not_or] at h
      obtain ⟨h1, h2⟩ := h
      cases hv : aget vars name with
      | none => simpa [rwriteBack, hv] using ih _ h2
      | some v =>
          cases v with
          | ref a =>
              simp only [rwriteBack, hv]
              rw [ih _ h2]
              show aget (aset st.data name a) n = aget st.data n
              exact aget_aset_ne _ _ _ _ (fun e => h1 e.symm)
          | pyObj t => simpa [rwriteBack, hv] using ih _ h2

/-- Counterexample to claim C1: the dict copy is shallow, so a script
that mutates a shared dataset object in place through its local
reference — with no write-back requested — changes the dataset value
the store observes: concretely, the call succeeds without write-back
and the stored value of `a` moves from `dfA` to `dfB`. -/
theorem namespace_shallow_copy_mutation_cex :
    (safe_eval_heap rwState StdoutTarget.real mutScript none).1 =
      Except.ok "<no output>" ∧
    storedValue rwState "a" = some dfA ∧
    storedValue
      (safe_eval_heap rwState StdoutTarget.real mutScript none).2.1 "a" =
      some dfB ∧
    dfA ≠ dfB :=
  ⟨rfl, rfl, rfl, by decide⟩

/-- Claim C1 amended: the execution namespace is a fresh dict built as
a shallow copy of the store mapping, so a script may rebind or replace
entries of its namespace without the store mapping of names to dataset
objects being affected at any name for which no write-back is
requested; and the stored dataset value under such a name is unchanged
provided the script did not mutate that object in place (the copy
shares the objects, so in-place mutation does reach the store). -/
theorem namespace_rebinding_isolated (s : RState) (old : StdoutTarget)
    (sc : RScript) (stm : Option (List String)) (n : String)
    (h : n ∉ stm.getD []) :
    aget (safe_eval_heap s old sc stm).2.1.data n = aget s.data n ∧
    (∀ a, aget s.data n = some a →
      hget (safe_eval_heap s old sc stm).2.1.heap a = hget s.heap a →
      storedValue (safe_eval_heap s old sc stm).2.1 n = storedValue s n) := by
  have hdata :
      aget (safe_eval_heap s old sc stm).2.1.data n = aget s.data n := by
    cases hr : sc.run (shallowCopy s.data) s.heap with
    | error p =>
        obtain ⟨e, heap2⟩ := p
        simp [safe_eval_heap, hr]
    | ok p =>
        obtain ⟨vars, rest⟩ := p
        obtain ⟨heap2, capturedText⟩ := rest
        simp only [safe_eval_heap, hr]
        rw [rwriteBack_data_of_not_mem vars n _ _ h]
  refine ⟨hdata, ?_⟩
  intro a ha hh
  unfold storedValue
  rw [hdata, ha]
  simpa using hh

/-- Witness for the amended C1: a script that rebinds `a` to a fresh
object and mutates nothing, run with no write-back request, leaves
both the stored reference and the observable dataset value of `a`
unchanged. -/
theorem namespace_rebinding_isolated_witness :
    ("a" ∉ (none : Option (List String)).getD []) ∧
    aget (safe_eval_heap rwState StdoutTarget.real rebindScript
      none).2.1.data "a" = aget rwState.data "a" ∧
    storedValue
      (safe_eval_heap rwState StdoutTarget.real rebindScript none).2.1 "a" =
      storedValue rwState "a" := by
  have h := namespace_rebinding_isolated rwState StdoutTarget.real
    rebindScript none "a" (by decide)
  exact ⟨by decide, h.1, h.2 0 rfl rfl⟩
